import Mathlib

/-!
# DarkHelp: a verification development

A shallow embedding of `src/DarkHelp.cpp` (the C++ helper class around Darknet's
C API) and proofs about it.

Conventions of the embedding.

* A C++ `float` or `double` holds a rational number (a finite value); every
  arithmetic operation of the source is the exact operation followed by the
  rounding of IEEE 754 round-to-nearest, ties-to-even, of the operand type
  (`f32` for `float`, `f64` for `double`).  Infinities and NaN are not
  represented, and the exponent range is not bounded above.
* C++ `int` values are integers.  The conversions of a float to `int` in the
  decode loop have no result outside the range of `int` (`toInt`); such an
  execution is undefined in C++ and ends the loop with `Error.undefined`.
  Index arithmetic in the image conversions is carried out in `ℕ`.
* A buffer reached through a pointer is a list, read with `List.getD` and
  written with `List.set`.
* A member function is a function from the object before the call to the
  outcome of the call (the value returned or the exception thrown) together
  with the object after the call: an exception leaves the members as they were
  when it was thrown.
* Darknet and OpenCV are not part of the repository.  Their operations are the
  fields of `Env`, apart from `make_image`, `cv::cvtColor` and the `cv::Mat`
  constructor, whose effect on the buffers is written out.
-/

namespace DarkHelp

/-! ## Floating point -/

/-- Auxiliary for `natLog2`: at most `fuel` halvings. -/
def log2Fuel : ℕ → ℕ → ℕ
  | 0, _ => 0
  | fuel + 1, n => if n < 2 then 0 else log2Fuel fuel (n / 2) + 1

/-- Position of the leading bit of `n` (and `0` for `n = 0`). -/
def natLog2 (n : ℕ) : ℕ := log2Fuel n n

/-- Binary exponent of a nonzero rational: the `e` with `2 ^ e ≤ |q| < 2 ^ (e + 1)`. -/
def ilog2 (q : ℚ) : ℤ :=
  let a : ℤ := natLog2 q.num.natAbs
  let b : ℤ := natLog2 q.den
  if (2 : ℚ) ^ (a - b) ≤ |q| then a - b else a - b - 1

/-- Nearest integer, a tie going to the even neighbour. -/
def roundNearestEven (q : ℚ) : ℤ :=
  let f := ⌊q⌋
  let r := q - f
  if r < 1 / 2 then f
  else if 1 / 2 < r then f + 1
  else if f % 2 = 0 then f else f + 1

/-- Rounding to the binary format with `prec` significand bits and least normal
exponent `emin` (round-to-nearest, ties-to-even, gradual underflow). -/
def roundToFormat (prec : ℕ) (emin : ℤ) (q : ℚ) : ℚ :=
  if q = 0 then 0
  else
    let e := max (ilog2 q) emin
    let quantum : ℚ := (2 : ℚ) ^ (e - ((prec : ℤ) - 1))
    (roundNearestEven (q / quantum) : ℚ) * quantum

/-- Rounding to `float` (binary32). -/
def f32 (q : ℚ) : ℚ := roundToFormat 24 (-126) q

/-- Rounding to `double` (binary64). -/
def f64 (q : ℚ) : ℚ := roundToFormat 53 (-1022) q

/-- Conversion of a floating value to an integer type: the fraction is discarded. -/
def truncate (q : ℚ) : ℤ := if 0 ≤ q then ⌊q⌋ else ⌈q⌉

/-- The values of the type `int`. -/
def InIntRange (z : ℤ) : Prop := -2147483648 ≤ z ∧ z ≤ 2147483647

instance (z : ℤ) : Decidable (InIntRange z) := by
  unfold InIntRange
  infer_instance

/-- Conversion of a floating value to `int`: the fraction is discarded.  When
the result is not a value of `int` the conversion is undefined in C++, and
there is no result (`none`). -/
def toInt (q : ℚ) : Option ℤ := if InIntRange (truncate q) then some (truncate q) else none

/-- The function `std::round`: nearest integral value, halfway cases away from zero. -/
def stdRound (q : ℚ) : ℚ := if 0 ≤ q then (⌊q + 1 / 2⌋ : ℤ) else (⌈q - 1 / 2⌉ : ℤ)

/-- The cast `(unsigned char)` of a floating value. -/
def toUChar (q : ℚ) : ℕ := (truncate q).toNat % 256

/-! ## Images -/

/-- The fields of `cv::Mat` the source reads: an 8-bit matrix with interleaved
channels, `step` bytes from one row to the next. -/
structure Mat where
  rows : ℕ
  cols : ℕ
  channels : ℕ
  step : ℕ
  data : List ℕ
  deriving DecidableEq, Repr

/-- The default constructed `cv::Mat()`. -/
def Mat.null : Mat := { rows := 0, cols := 0, channels := 1, step := 0, data := [] }

/-- The test `cv::Mat::empty()`. -/
def Mat.empty (m : Mat) : Bool := m.data.isEmpty || m.rows * m.cols == 0

/-- Darknet's `image`: planar floats, one plane per channel. -/
structure Image where
  w : ℕ
  h : ℕ
  c : ℕ
  data : List ℚ
  deriving DecidableEq, Repr

/-- Darknet's `make_image`: a zeroed buffer of `w * h * c` floats. -/
def make_image (w h c : ℕ) : Image :=
  { w := w, h := h, c := c, data := List.replicate (h * w * c) 0 }

/-- The constructor `cv::Mat(rows, cols, CV_8UC(channels))`: a continuous matrix. -/
def Mat.create (rows cols channels : ℕ) : Mat :=
  { rows := rows, cols := cols, channels := channels, step := cols * channels,
    data := List.replicate (rows * (cols * channels)) 0 }

/-- The call `cv::cvtColor` with `COLOR_BGR2RGB` (the same permutation as
`COLOR_RGB2BGR`) on a three channel matrix: a continuous matrix of the same
size in which channels 0 and 2 of every pixel are exchanged. -/
def cvtColor (m : Mat) : Mat :=
  { rows := m.rows, cols := m.cols, channels := 3, step := m.cols * 3,
    data := (List.range (m.rows * (m.cols * 3))).map fun i =>
      m.data.getD ((i / (m.cols * 3)) * m.step + ((i % (m.cols * 3)) / 3) * 3
        + (2 - (i % (m.cols * 3)) % 3)) 0 }

/-- The function `DarkHelp::convert_opencv_mat_to_darknet_image`. -/
def convert_opencv_mat_to_darknet_image (mat : Mat) : Image :=
  let mat := if mat.channels = 3 then cvtColor mat else mat
  let width := mat.cols
  let height := mat.rows
  let channels := mat.channels
  let step := mat.step
  let img := make_image width height channels
  let data := mat.data
  { img with
    data := (List.range height).foldl (fun d y =>
      (List.range channels).foldl (fun d c =>
        (List.range width).foldl (fun d x =>
          d.set (c * width * height + y * width + x)
            (f32 ((data.getD (y * step + x * channels + c) 0 : ℚ) / 255))) d) d) img.data }

/-- The function `DarkHelp::convert_darknet_image_to_opencv_mat`. -/
def convert_darknet_image_to_opencv_mat (img : Image) : Mat :=
  let channels := img.c
  let width := img.w
  let height := img.h
  let mat := Mat.create height width channels
  let step := mat.step
  let mat := { mat with
    data := (List.range height).foldl (fun d y =>
      (List.range width).foldl (fun d x =>
        (List.range channels).foldl (fun d c =>
          d.set (y * step + x * channels + c)
            (toUChar (f32 (img.data.getD (c * height * width + y * width + x) 0 * 255)))) d) d)
      mat.data }
  if channels = 3 then cvtColor mat else mat

/-! ## The detector -/

/-- The exceptions the source throws, by type, and `undefined` for an
execution that C++ leaves undefined (a conversion to `int` out of range). -/
inductive Error where
  | invalid_argument
  | runtime_error
  | logic_error
  | out_of_range
  | undefined
  deriving DecidableEq, Repr

/-- Darknet's `box`: centre and size, as fractions of the image. -/
structure Box where
  x : ℚ
  y : ℚ
  w : ℚ
  h : ℚ

/-- The fields of Darknet's `detection` the source reads; `prob` is the
pointer to the per-class probabilities. -/
structure Detection where
  bbox : Box
  classes : ℤ
  prob : ℕ → ℚ
  objectness : ℚ
  sort_class : ℤ

/-- The type `cv::Rect`. -/
structure Rect where
  x : ℤ
  y : ℤ
  width : ℤ
  height : ℤ
  deriving DecidableEq, Repr

/-- The type `DarkHelp::PredictionResult`. -/
structure PredictionResult where
  rect : Rect
  class_id : ℤ
  probability : ℚ
  name : String
  deriving DecidableEq, Repr

/-- A call into Darknet, as recorded by the constructor. -/
inductive EngineCall where
  | load_network_custom (cfg weights : String)
  | fuse_conv_batchnorm
  | calculate_binary_weights
  deriving DecidableEq, Repr

/-- The collaborators of the class: Darknet (on a network handle of type
`Net`), OpenCV, the file system and the clock. -/
structure Env (Net : Type) where
  /-- Darknet's loader; `none` is the null pointer. -/
  load_network_custom : String → String → Option Net
  fuse_conv_batchnorm : Net → Net
  calculate_binary_weights : Net → Net
  /-- The fields `net->w` and `net->h`. -/
  net_w : Net → ℕ
  net_h : Net → ℕ
  /-- The field `net->layers[net->n - 1].classes`. -/
  net_classes : Net → ℤ
  /-- The forward pass: the network after it has seen the input. -/
  network_predict : Net → Image → Net
  /-- Darknet's box extraction for an image of the given width and height and
  the two thresholds; the length of the list is `nboxes`. -/
  get_network_boxes : Net → ℕ → ℕ → ℚ → ℚ → List Detection
  /-- Darknet's suppression primitive: it works in place on the `nboxes`
  entries it is handed (the count is passed by value). -/
  do_nms_sort : List Detection → ℤ → ℚ → List Detection
  /-- Nanoseconds the clock measures around the loader and the forward pass. -/
  load_time : String → String → ℤ
  forward_time : Net → Image → ℤ
  /-- The lines `std::getline` reads from the named file (none when the file
  cannot be opened). -/
  file_lines : String → List String
  imread : String → Mat
  resize : Mat → ℕ → ℕ → Mat
  /-- The drawing calls `cv::rectangle`, `cv::getTextSize` and `cv::putText`. -/
  rectangle : Mat → Rect → ℕ × ℕ × ℕ → ℤ → Mat
  getTextSize : String → ℚ → ℤ → ℤ × ℤ
  putText : Mat → String → ℤ × ℤ → ℚ → ℕ × ℕ × ℕ → ℤ → Mat

/-- The data members of the class `DarkHelp`. -/
structure Detector (Net : Type) where
  net : Option Net
  names : List String
  duration : ℤ
  threshold : ℚ
  hierchy_threshold : ℚ
  non_maximal_suppression_threshold : ℚ
  annotation_colour : ℕ × ℕ × ℕ
  annotation_font_scale : ℚ
  annotation_font_thickness : ℤ
  original_image : Mat
  annotated_image : Mat
  prediction_results : List PredictionResult

/-- The `std::getline` loop of the constructor: lines are appended up to the
first empty one. -/
def readNames : List String → List String → List String
  | [], names => names
  | line :: rest, names => if line = "" then names else readNames rest (names ++ [line])

/-- The constructor `DarkHelp::DarkHelp`: the object constructed or the
exception thrown, and the Darknet calls made on the way. -/
def construct {Net : Type} (env : Env Net) (cfg_filename weights_filename names_filename : String) :
    Except Error (Detector Net) × List EngineCall :=
  if cfg_filename = "" then (.error .invalid_argument, [])
  else if weights_filename = "" then (.error .invalid_argument, [])
  else
    match env.load_network_custom cfg_filename weights_filename with
    | none => (.error .runtime_error, [.load_network_custom cfg_filename weights_filename])
    | some net =>
      let net := env.calculate_binary_weights (env.fuse_conv_batchnorm net)
      (.ok
        { net := some net
          names := if ¬ names_filename = "" then readNames (env.file_lines names_filename) [] else []
          duration := env.load_time cfg_filename weights_filename
          threshold := 1 / 2
          hierchy_threshold := 1 / 2
          non_maximal_suppression_threshold := f32 (9 / 20)
          annotation_colour := (255, 0, 255)
          annotation_font_scale := 1 / 2
          annotation_font_thickness := 1
          original_image := Mat.null
          annotated_image := Mat.null
          prediction_results := [] },
        [.load_network_custom cfg_filename weights_filename, .fuse_conv_batchnorm,
          .calculate_binary_weights])

/-- The function `DarkHelp::duration_string`, on the stored duration in
nanoseconds; `std::chrono::duration_cast` discards the fraction. -/
def duration_string (duration : ℤ) : String :=
  if duration ≤ 1000 then toString duration ++ " nanoseconds"
  else if duration ≤ 1000 * 1000 then toString (duration.tdiv 1000) ++ " microseconds"
  else if duration ≤ 1000 * 1000000 then toString (duration.tdiv 1000000) ++ " milliseconds"
  else toString (duration.tdiv 1000000) ++ " milliseconds"

/-- Lines 316 to 323: the name of a class id.  `names.at` throws
`std::out_of_range` for an index that is not below `names.size()` (a negative
`int` converts to an index beyond every size). -/
def resolveName (names : List String) (class_id : ℤ) : Except Error String :=
  if (names.length : ℤ) ≥ class_id then
    if 0 ≤ class_id ∧ class_id.toNat < names.length then .ok (names.getD class_id.toNat "")
    else .error .out_of_range
  else .ok ("#" ++ toString class_id)

/-- Lines 291 to 294 and 313: the rectangle of a box in an image of `cols` by
`rows` pixels; `none` when one of the four conversions to `int` is undefined. -/
def decodeRect (bbox : Box) (cols rows : ℕ) : Option Rect :=
  (toInt (stdRound (f32 (bbox.w * f32 cols)))).bind fun w =>
  (toInt (stdRound (f32 (bbox.h * f32 rows)))).bind fun h =>
  (toInt (stdRound (f64 (f32 (bbox.x * f32 cols) - (w : ℚ) / 2)))).bind fun x =>
  (toInt (stdRound (f64 (f32 (bbox.y * f32 rows) - (h : ℚ) / 2)))).bind fun y =>
  some { x := x, y := y, width := w, height := h }

/-- The body of the inner loop (lines 289 to 325) for one class index: the
result list after it, and the exception when one is thrown. -/
def decodeClass (names : List String) (threshold : ℚ) (cols rows : ℕ) (det : Detection)
    (results : List PredictionResult) (class_idx : ℕ) : List PredictionResult × Option Error :=
  if det.prob class_idx ≥ threshold then
    match decodeRect det.bbox cols rows with
    | none => (results, some .undefined)
    | some rect =>
      match resolveName names det.sort_class with
      | .ok name =>
        (results ++ [{ rect := rect, class_id := det.sort_class,
                       probability := det.prob class_idx, name := name }], none)
      | .error e => (results, some e)
  else (results, none)

/-- A `for` loop whose body may throw: the state when the loop is left, and the
exception that ended it early. -/
def forEach {σ ι : Type} (body : σ → ι → σ × Option Error) : List ι → σ → σ × Option Error
  | [], s => (s, none)
  | i :: rest, s =>
    match body s i with
    | (s', none) => forEach body rest s'
    | (s', some e) => (s', some e)

/-- The inner loop (lines 287 to 326) over the class indices of one detection. -/
def decodeDetection (names : List String) (threshold : ℚ) (cols rows : ℕ)
    (results : List PredictionResult) (det : Detection) : List PredictionResult × Option Error :=
  forEach (decodeClass names threshold cols rows det) (List.range det.classes.toNat) results

/-- The outer loop (lines 283 to 327) over the detections. -/
def decode (names : List String) (threshold : ℚ) (cols rows : ℕ) (dets : List Detection)
    (results : List PredictionResult) : List PredictionResult × Option Error :=
  forEach (decodeDetection names threshold cols rows) dets results

/-- Lines 277 to 281: the suppression primitive is called when the suppression
threshold is not zero. -/
def suppress {Net : Type} (env : Env Net) (net : Net) (nms : ℚ) (dets : List Detection) :
    List Detection :=
  if nms ≠ 0 then env.do_nms_sort dets (env.net_classes net) nms else dets

/-- Lines 257 to 260 (and 123 to 126): a threshold that is not negative
replaces the stored one. -/
def updateThreshold (threshold new_threshold : ℚ) : ℚ :=
  if new_threshold ≥ 0 then new_threshold else threshold

/-- Lines 262 to 264: the input of the forward pass. -/
def forwardInput {Net : Type} (env : Env Net) (net : Net) (original_image : Mat) : Image :=
  let resized_image := env.resize original_image (env.net_w net) (env.net_h net)
  convert_opencv_mat_to_darknet_image resized_image

/-- Lines 275 to 281: the raw detection set the decode loop runs over, from
the network after the forward pass. -/
def rawDetections {Net : Type} (env : Env Net) (net : Net) (original_image : Mat)
    (threshold hierchy_threshold non_maximal_suppression_threshold : ℚ) : List Detection :=
  let darknet_results := env.get_network_boxes net original_image.cols original_image.rows
    threshold hierchy_threshold
  suppress env net non_maximal_suppression_threshold darknet_results

/-- The function `DarkHelp::predict(const float)`: the list returned or the
exception thrown, and the object after the call. -/
def predict {Net : Type} (env : Env Net) (self : Detector Net) (new_threshold : ℚ) :
    Except Error (List PredictionResult) × Detector Net :=
  let self := { self with prediction_results := [], annotated_image := Mat.null }
  match self.net with
  | none => (.error .logic_error, self)
  | some net =>
    if self.original_image.empty then (.error .logic_error, self)
    else
      let self := { self with threshold := updateThreshold self.threshold new_threshold }
      let img := forwardInput env net self.original_image
      let net' := env.network_predict net img
      let self := { self with net := some net', duration := env.forward_time net img }
      let darknet_results := rawDetections env net' self.original_image self.threshold
        self.hierchy_threshold self.non_maximal_suppression_threshold
      match decode self.names self.threshold self.original_image.cols self.original_image.rows
          darknet_results self.prediction_results with
      | (results, some e) => (.error e, { self with prediction_results := results })
      | (results, none) => (.ok results, { self with prediction_results := results })

/-- The function `DarkHelp::predict(cv::Mat, const float)`. -/
def predictMat {Net : Type} (env : Env Net) (self : Detector Net) (mat : Mat) (new_threshold : ℚ) :
    Except Error (List PredictionResult) × Detector Net :=
  if mat.empty then (.error .invalid_argument, self)
  else predict env { self with original_image := mat } new_threshold

/-- The function `DarkHelp::predict(const std::string &, const float)`. -/
def predictFile {Net : Type} (env : Env Net) (self : Detector Net) (image_filename : String)
    (new_threshold : ℚ) : Except Error (List PredictionResult) × Detector Net :=
  let mat := env.imread image_filename
  if mat.empty then (.error .invalid_argument, self)
  else predictMat env self mat new_threshold

/-- The function `DarkHelp::predict(image, const float)`. -/
def predictImage {Net : Type} (env : Env Net) (self : Detector Net) (img : Image)
    (new_threshold : ℚ) : Except Error (List PredictionResult) × Detector Net :=
  let mat := convert_darknet_image_to_opencv_mat img
  if mat.empty then (.error .invalid_argument, self)
  else predictMat env self mat new_threshold

/-- The body of the loop of `annotate` (lines 134 to 144) for one result; the
line written to `std::cout` is left out. -/
def annotateOne {Net : Type} (env : Env Net) (self : Detector Net) (annotated_image : Mat)
    (pred : PredictionResult) : Mat :=
  if pred.probability ≥ self.threshold then
    let annotated_image := env.rectangle annotated_image pred.rect self.annotation_colour 2
    let text_size := env.getTextSize pred.name self.annotation_font_scale
      self.annotation_font_thickness
    let r : Rect := { x := pred.rect.x - 1, y := pred.rect.y - text_size.2,
                      width := text_size.1 + 2, height := text_size.2 + 2 }
    let annotated_image := env.rectangle annotated_image r self.annotation_colour (-1)
    env.putText annotated_image pred.name (r.x + 1, r.y + text_size.2)
      self.annotation_font_scale (0, 0, 0) self.annotation_font_thickness
  else annotated_image

/-- The function `DarkHelp::annotate`: the image returned or the exception
thrown, and the object after the call. -/
def annotate {Net : Type} (env : Env Net) (self : Detector Net) (new_threshold : ℚ)
    (include_duraton : Bool) : Except Error Mat × Detector Net :=
  if self.original_image.empty then (.error .logic_error, self)
  else
    let self := { self with threshold := updateThreshold self.threshold new_threshold }
    let annotated_image := self.original_image
    let annotated_image := self.prediction_results.foldl (annotateOne env self) annotated_image
    let annotated_image :=
      if include_duraton then
        let str := duration_string self.duration
        let text_size := env.getTextSize str self.annotation_font_scale
          self.annotation_font_thickness
        let r : Rect := { x := 2, y := 2, width := text_size.1 + 4, height := text_size.2 + 4 }
        let annotated_image := env.rectangle annotated_image r (255, 255, 255) (-1)
        env.putText annotated_image str (2, text_size.2 + 3) self.annotation_font_scale
          (0, 0, 0) self.annotation_font_thickness
      else annotated_image
    (.ok annotated_image, { self with annotated_image := annotated_image })

/-- A call on a detector, for sequences of calls. -/
inductive Call where
  | predictMat (mat : Mat) (new_threshold : ℚ)
  | predictFile (image_filename : String) (new_threshold : ℚ)
  | predictImage (img : Image) (new_threshold : ℚ)
  | annotate (new_threshold : ℚ) (include_duraton : Bool)

/-- The object after a call. -/
def Call.run {Net : Type} (env : Env Net) (self : Detector Net) : Call → Detector Net
  | .predictMat mat t => (DarkHelp.predictMat env self mat t).2
  | .predictFile f t => (DarkHelp.predictFile env self f t).2
  | .predictImage img t => (DarkHelp.predictImage env self img t).2
  | .annotate t d => (DarkHelp.annotate env self t d).2

/-- Whether a call is a `predict` that completes without an exception. -/
def Call.predictSucceeds {Net : Type} (env : Env Net) (self : Detector Net) : Call → Bool
  | .predictMat mat t => (DarkHelp.predictMat env self mat t).1.toBool
  | .predictFile f t => (DarkHelp.predictFile env self f t).1.toBool
  | .predictImage img t => (DarkHelp.predictImage env self img t).1.toBool
  | .annotate _ _ => false

/-- The image a `predict` call hands to `predict(cv::Mat, const float)`. -/
def Call.image {Net : Type} (env : Env Net) : Call → Option Mat
  | .predictMat mat _ => some mat
  | .predictFile f _ => some (env.imread f)
  | .predictImage img _ => some (convert_darknet_image_to_opencv_mat img)
  | .annotate _ _ => none

/-- The object after a sequence of calls. -/
def runCalls {Net : Type} (env : Env Net) (self : Detector Net) (calls : List Call) :
    Detector Net :=
  calls.foldl (Call.run env) self

/-- Whether some `predict` call of the sequence completes without an exception. -/
def anyPredictSucceeds {Net : Type} (env : Env Net) : Detector Net → List Call → Bool
  | _, [] => false
  | self, c :: rest => c.predictSucceeds env self || anyPredictSucceeds env (c.run env self) rest

/-- Specification, section 4.3 step 3: `n` is `q` rounded to the nearest
integer, a halfway case going away from zero. -/
def IsRoundHalfAway (q : ℚ) (n : ℤ) : Prop :=
  |(n : ℚ) - q| ≤ 1 / 2 ∧ (|(n : ℚ) - q| = 1 / 2 → |q| < |(n : ℚ)|)

/-- Specification, section 4.3 step 3: rounding to the nearest integer, a
halfway case going away from zero. -/
def roundHalfAway (q : ℚ) : ℤ := if 0 ≤ q then ⌊q + 1 / 2⌋ else -⌊-q + 1 / 2⌋

/-- Specification, section 4.3 step 3: width, height, x and y of a box in an
image of `cols` by `rows` pixels, on the floating intermediates of the source
(`float` products, `double` differences), as integers without bound. -/
def specRect (bbox : Box) (cols rows : ℕ) : Rect :=
  let w := roundHalfAway (f32 (bbox.w * f32 cols))
  let h := roundHalfAway (f32 (bbox.h * f32 rows))
  { x := roundHalfAway (f64 (f32 (bbox.x * f32 cols) - (w : ℚ) / 2))
    y := roundHalfAway (f64 (f32 (bbox.y * f32 rows) - (h : ℚ) / 2))
    width := w
    height := h }

/-- The four values of a rectangle are values of `int`. -/
def Rect.InIntRange (r : Rect) : Prop :=
  DarkHelp.InIntRange r.x ∧ DarkHelp.InIntRange r.y ∧
    DarkHelp.InIntRange r.width ∧ DarkHelp.InIntRange r.height

instance (r : Rect) : Decidable r.InIntRange := by
  unfold Rect.InIntRange
  infer_instance

/-- Specification, section 4.3 step 5: the name at the index of the class id
when the name table has at least as many entries as the class id, and the
synthetic name otherwise. -/
def specName (names : List String) (class_id : ℤ) : String :=
  if class_id ≤ (names.length : ℤ) then names.getD class_id.toNat ""
  else "#" ++ toString class_id

/-- Specification, section 4.3 steps 3 to 5: the result of a (box, class
index) pair. -/
def specResult (names : List String) (cols rows : ℕ) (det : Detection) (class_idx : ℕ) :
    PredictionResult :=
  { rect := specRect det.bbox cols rows
    class_id := det.sort_class
    probability := det.prob class_idx
    name := specName names det.sort_class }

/-- Specification, section 4.3 steps 2 and 6: one result for each (box, class
index) pair whose probability is at least the threshold, boxes in the order
of the raw detection set and class indices in increasing order within a box. -/
def specDecode (names : List String) (threshold : ℚ) (cols rows : ℕ) (dets : List Detection) :
    List PredictionResult :=
  dets.flatMap fun det =>
    ((List.range det.classes.toNat).filter fun k => decide (threshold ≤ det.prob k)).map
      (specResult names cols rows det)

/-- The class ids for which lines 316 to 323 produce a name: those beyond the
size of the name table, and the indices into it. -/
def NameResolves (names : List String) (class_id : ℤ) : Prop :=
  (names.length : ℤ) < class_id ∨ (0 ≤ class_id ∧ class_id < (names.length : ℤ))

instance (names : List String) (class_id : ℤ) : Decidable (NameResolves names class_id) := by
  unfold NameResolves
  infer_instance

/-- Every (box, class index) pair the threshold accepts has a rectangle within
the range of `int` and a class id for which a name is produced. -/
def AcceptedDecode (names : List String) (threshold : ℚ) (cols rows : ℕ)
    (dets : List Detection) : Prop :=
  ∀ det ∈ dets, ∀ k < det.classes.toNat, threshold ≤ det.prob k →
    (specRect det.bbox cols rows).InIntRange ∧ NameResolves names det.sort_class

/-! ## A concrete environment -/

deriving instance DecidableEq for Except

/-- A raw detection with one class. -/
def sampleDetection (bbox : Box) (p : ℚ) (sort_class : ℤ) : Detection :=
  { bbox := bbox, classes := 1, prob := fun k => if k = 0 then p else 0, objectness := p,
    sort_class := sort_class }

/-- A suppression primitive in the manner of Darknet's: boxes after the first
have their probabilities set to zero. -/
def sampleSuppress (dets : List Detection) (_classes : ℤ) (_thresh : ℚ) : List Detection :=
  match dets with
  | [] => []
  | d :: rest => d :: rest.map fun r => { r with prob := fun _ => 0 }

/-- An environment with a network handle without content: the loader accepts
every pair of file names but `"bad.weights"`, the box extraction yields `dets`,
the drawing calls leave the image as it is. -/
def sampleEnv (dets : List Detection) (file : List String) : Env Unit :=
  { load_network_custom := fun _ weights => if weights = "bad.weights" then none else some ()
    fuse_conv_batchnorm := fun n => n
    calculate_binary_weights := fun n => n
    net_w := fun _ => 2
    net_h := fun _ => 2
    net_classes := fun _ => 1
    network_predict := fun n _ => n
    get_network_boxes := fun _ _ _ _ _ => dets
    do_nms_sort := sampleSuppress
    load_time := fun _ _ => 5000000
    forward_time := fun _ _ => 2500000
    file_lines := fun _ => file
    imread := fun _ => Mat.null
    resize := fun m _ _ => m
    rectangle := fun m _ _ _ => m
    getTextSize := fun s _ _ => (8 * s.length, 10)
    putText := fun m _ _ _ _ _ => m }

/-- A grey image of two by two pixels. -/
def sampleMat : Mat := { rows := 2, cols := 2, channels := 1, step := 2, data := [10, 20, 30, 255] }

/-- A detector as the constructor leaves it, with the given name table. -/
def sampleDetector (names : List String) : Detector Unit :=
  { net := some ()
    names := names
    duration := 5000000
    threshold := 1 / 2
    hierchy_threshold := 1 / 2
    non_maximal_suppression_threshold := f32 (9 / 20)
    annotation_colour := (255, 0, 255)
    annotation_font_scale := 1 / 2
    annotation_font_thickness := 1
    original_image := Mat.null
    annotated_image := Mat.null
    prediction_results := [] }

/-! ## The rounding of the floating point formats -/

theorem log2Fuel_spec (fuel n : ℕ) (hn : 0 < n) (hf : n ≤ fuel) :
    2 ^ log2Fuel fuel n ≤ n ∧ n < 2 ^ (log2Fuel fuel n + 1) := by
  induction fuel generalizing n with
  | zero => omega
  | succ fuel ih =>
    unfold log2Fuel
    by_cases h2 : n < 2
    · rw [if_pos h2]
      have : n = 1 := by omega
      subst this
      decide
    · rw [if_neg h2]
      obtain ⟨h1, h3⟩ := ih (n / 2) (by omega) (by omega)
      rw [pow_succ] at h3 ⊢
      rw [pow_succ]
      constructor <;> omega

theorem natLog2_spec (n : ℕ) (hn : 0 < n) :
    2 ^ natLog2 n ≤ n ∧ n < 2 ^ (natLog2 n + 1) :=
  log2Fuel_spec n n hn (le_refl n)

/-- The binary exponent brackets the magnitude. -/
theorem ilog2_spec (q : ℚ) (hq : q ≠ 0) :
    (2 : ℚ) ^ ilog2 q ≤ |q| ∧ |q| < (2 : ℚ) ^ (ilog2 q + 1) := by
  have hnum : 0 < q.num.natAbs := Int.natAbs_pos.mpr (Rat.num_ne_zero.mpr hq)
  obtain ⟨a1, a2⟩ := natLog2_spec q.num.natAbs hnum
  obtain ⟨b1, b2⟩ := natLog2_spec q.den q.den_pos
  have hden : (0 : ℚ) < (q.den : ℚ) := by exact_mod_cast q.den_pos
  have habs : |q| = (q.num.natAbs : ℚ) / (q.den : ℚ) := by
    conv_lhs => rw [← Rat.num_div_den q]
    rw [abs_div, abs_of_pos hden, Nat.cast_natAbs, Int.cast_abs]
  have a1' : (2 : ℚ) ^ (natLog2 q.num.natAbs) ≤ (q.num.natAbs : ℚ) := by exact_mod_cast a1
  have a2' : (q.num.natAbs : ℚ) < (2 : ℚ) ^ (natLog2 q.num.natAbs + 1) := by exact_mod_cast a2
  have b1' : (2 : ℚ) ^ (natLog2 q.den) ≤ (q.den : ℚ) := by exact_mod_cast b1
  have b2' : (q.den : ℚ) < (2 : ℚ) ^ (natLog2 q.den + 1) := by exact_mod_cast b2
  have hpa : (0 : ℚ) < (2 : ℚ) ^ (natLog2 q.num.natAbs) := by positivity
  have hpb : (0 : ℚ) < (2 : ℚ) ^ (natLog2 q.den) := by positivity
  have two : (2 : ℚ) ≠ 0 := by norm_num
  have hsub : (2 : ℚ) ^ (((natLog2 q.num.natAbs : ℕ) : ℤ) - ((natLog2 q.den : ℕ) : ℤ))
      = (2 : ℚ) ^ (natLog2 q.num.natAbs) / (2 : ℚ) ^ (natLog2 q.den) := by
    rw [zpow_sub₀ two, zpow_natCast, zpow_natCast]
  unfold ilog2
  simp only
  by_cases hc : (2 : ℚ) ^ (((natLog2 q.num.natAbs : ℕ) : ℤ) - ((natLog2 q.den : ℕ) : ℤ)) ≤ |q|
  · rw [if_pos hc]
    refine ⟨hc, ?_⟩
    rw [zpow_add_one₀ two, hsub, habs, div_mul_eq_mul_div, div_lt_div_iff₀ hden hpb]
    rw [pow_succ] at a2'
    calc (q.num.natAbs : ℚ) * 2 ^ natLog2 q.den
        ≤ (q.num.natAbs : ℚ) * (q.den : ℚ) := by
          apply mul_le_mul_of_nonneg_left b1' (by positivity)
      _ < 2 ^ natLog2 q.num.natAbs * 2 * (q.den : ℚ) := by
          apply mul_lt_mul_of_pos_right a2' hden
  · rw [if_neg hc]
    refine ⟨?_, ?_⟩
    · rw [zpow_sub_one₀ two, hsub, habs, div_mul_eq_mul_div, div_le_div_iff₀ hpb hden,
        mul_comm _ (2 : ℚ)⁻¹, mul_assoc]
      rw [pow_succ] at b2'
      have h1 : (2 : ℚ)⁻¹ * (2 ^ natLog2 q.num.natAbs * (q.den : ℚ))
          ≤ (2 : ℚ)⁻¹ * (2 ^ natLog2 q.num.natAbs * (2 ^ natLog2 q.den * 2)) := by
        apply mul_le_mul_of_nonneg_left _ (by norm_num)
        apply mul_le_mul_of_nonneg_left (le_of_lt b2') (le_of_lt hpa)
      have h2 : (2 : ℚ)⁻¹ * (2 ^ natLog2 q.num.natAbs * (2 ^ natLog2 q.den * 2))
          = 2 ^ natLog2 q.num.natAbs * 2 ^ natLog2 q.den := by ring
      have h3 : (2 : ℚ) ^ natLog2 q.num.natAbs * 2 ^ natLog2 q.den
          ≤ (q.num.natAbs : ℚ) * 2 ^ natLog2 q.den := by
        apply mul_le_mul_of_nonneg_right a1' (le_of_lt hpb)
      linarith
    · have : ((natLog2 q.num.natAbs : ℕ) : ℤ) - ((natLog2 q.den : ℕ) : ℤ) - 1 + 1
          = ((natLog2 q.num.natAbs : ℕ) : ℤ) - ((natLog2 q.den : ℕ) : ℤ) := by ring
      rw [this]
      exact lt_of_not_ge hc

/-- Rounding to the nearest integer moves a value by at most one half. -/
theorem roundNearestEven_error (q : ℚ) : |(roundNearestEven q : ℚ) - q| ≤ 1 / 2 := by
  have h1 := Int.floor_le q
  have h2 := Int.lt_floor_add_one q
  unfold roundNearestEven
  simp only
  by_cases c1 : q - (⌊q⌋ : ℚ) < 1 / 2
  · rw [if_pos c1, abs_le]
    constructor <;> linarith
  · rw [if_neg c1]
    by_cases c2 : 1 / 2 < q - (⌊q⌋ : ℚ)
    · rw [if_pos c2, abs_le]
      push_cast
      constructor <;> linarith
    · rw [if_neg c2]
      by_cases c3 : ⌊q⌋ % 2 = 0
      · rw [if_pos c3, abs_le]
        constructor <;> linarith
      · rw [if_neg c3, abs_le]
        push_cast
        constructor <;> linarith

/-- An integer is its own nearest integer. -/
theorem roundNearestEven_intCast (z : ℤ) : roundNearestEven (z : ℚ) = z := by
  unfold roundNearestEven
  simp

/-- Rounding to a format moves a value by at most half a unit in the last place. -/
theorem roundToFormat_error (prec : ℕ) (emin : ℤ) (q : ℚ) :
    |roundToFormat prec emin q - q|
      ≤ (2 : ℚ) ^ (max (ilog2 q) emin - ((prec : ℤ) - 1)) / 2 := by
  unfold roundToFormat
  by_cases hq : q = 0
  · rw [if_pos hq, hq]
    simp only [sub_self, abs_zero]
    positivity
  · rw [if_neg hq]
    simp only
    have hpos : (0 : ℚ) < (2 : ℚ) ^ (max (ilog2 q) emin - ((prec : ℤ) - 1)) := by positivity
    have h := roundNearestEven_error (q / (2 : ℚ) ^ (max (ilog2 q) emin - ((prec : ℤ) - 1)))
    have e : (roundNearestEven (q / (2 : ℚ) ^ (max (ilog2 q) emin - ((prec : ℤ) - 1))) : ℚ)
          * (2 : ℚ) ^ (max (ilog2 q) emin - ((prec : ℤ) - 1)) - q
        = ((roundNearestEven (q / (2 : ℚ) ^ (max (ilog2 q) emin - ((prec : ℤ) - 1))) : ℚ)
            - q / (2 : ℚ) ^ (max (ilog2 q) emin - ((prec : ℤ) - 1)))
          * (2 : ℚ) ^ (max (ilog2 q) emin - ((prec : ℤ) - 1)) := by
      field_simp
    rw [e, abs_mul, abs_of_pos hpos]
    calc _ ≤ 1 / 2 * (2 : ℚ) ^ (max (ilog2 q) emin - ((prec : ℤ) - 1)) :=
          mul_le_mul_of_nonneg_right h (le_of_lt hpos)
      _ = _ := by ring

/-- The relative error of a `float` operation whose exact result is in the
normal range is at most `2 ^ (-24)`. -/
theorem f32_relative_error (q : ℚ) (hq : (2 : ℚ) ^ (-126 : ℤ) ≤ |q|) :
    |f32 q - q| ≤ (2 : ℚ) ^ (-24 : ℤ) * |q| := by
  have hne : q ≠ 0 := by
    intro h
    rw [h, abs_zero] at hq
    have : (0 : ℚ) < (2 : ℚ) ^ (-126 : ℤ) := by positivity
    linarith
  obtain ⟨h1, h2⟩ := ilog2_spec q hne
  have two : (2 : ℚ) ≠ 0 := by norm_num
  have hexp : (-126 : ℤ) ≤ ilog2 q := by
    by_contra hlt
    push_neg at hlt
    have : (2 : ℚ) ^ (ilog2 q + 1) ≤ (2 : ℚ) ^ (-126 : ℤ) :=
      zpow_le_zpow_right₀ (by norm_num) (by omega)
    linarith
  have h := roundToFormat_error 24 (-126) q
  rw [max_eq_left hexp] at h
  unfold f32
  have e : (2 : ℚ) ^ (ilog2 q - (((24 : ℕ) : ℤ) - 1)) / 2
      = (2 : ℚ) ^ (-24 : ℤ) * (2 : ℚ) ^ ilog2 q := by
    have : ilog2 q - (((24 : ℕ) : ℤ) - 1) = -24 + ilog2 q + 1 := by push_cast; ring
    rw [this, zpow_add_one₀ two, zpow_add₀ two]
    ring
  rw [e] at h
  calc |roundToFormat 24 (-126) q - q| ≤ (2 : ℚ) ^ (-24 : ℤ) * (2 : ℚ) ^ ilog2 q := h
    _ ≤ (2 : ℚ) ^ (-24 : ℤ) * |q| := mul_le_mul_of_nonneg_left h1 (by positivity)

/-- An integer of magnitude below `2 ^ 24` is a `float`: the conversion of such
an `int` to `float` is exact. -/
theorem f32_intCast (z : ℤ) (hz : |z| < 2 ^ 24) : f32 (z : ℚ) = z := by
  by_cases h0 : z = 0
  · subst h0
    simp [f32, roundToFormat]
  · have hq : (z : ℚ) ≠ 0 := by exact_mod_cast h0
    obtain ⟨h1, h2⟩ := ilog2_spec (z : ℚ) hq
    have habs1 : (1 : ℚ) ≤ |(z : ℚ)| := by
      have : (1 : ℤ) ≤ |z| := Int.one_le_abs h0
      exact_mod_cast this
    have habs2 : |(z : ℚ)| < (2 : ℚ) ^ (24 : ℤ) := by
      have : ((|z| : ℤ) : ℚ) < ((2 ^ 24 : ℤ) : ℚ) := by exact_mod_cast hz
      rw [Int.cast_abs] at this
      have e : ((2 ^ 24 : ℤ) : ℚ) = (2 : ℚ) ^ (24 : ℤ) := by norm_num
      rw [e] at this
      exact this
    have he0 : 0 ≤ ilog2 (z : ℚ) := by
      by_contra hlt
      push_neg at hlt
      have : (2 : ℚ) ^ (ilog2 (z : ℚ) + 1) ≤ (2 : ℚ) ^ (0 : ℤ) :=
        zpow_le_zpow_right₀ (by norm_num) (by omega)
      rw [zpow_zero] at this
      linarith
    have he1 : ilog2 (z : ℚ) ≤ 23 := by
      by_contra hgt
      push_neg at hgt
      have : (2 : ℚ) ^ (24 : ℤ) ≤ (2 : ℚ) ^ ilog2 (z : ℚ) :=
        zpow_le_zpow_right₀ (by norm_num) (by omega)
      linarith
    obtain ⟨k, hk⟩ : ∃ k : ℕ, ilog2 (z : ℚ) - 23 = -(k : ℤ) :=
      ⟨(23 - ilog2 (z : ℚ)).toNat, by omega⟩
    unfold f32 roundToFormat
    rw [if_neg hq]
    simp only
    rw [max_eq_left (by omega)]
    have hexp : ilog2 (z : ℚ) - (((24 : ℕ) : ℤ) - 1) = -(k : ℤ) := by
      rw [← hk]
      push_cast
      ring
    rw [hexp, zpow_neg, zpow_natCast]
    have hdiv : (z : ℚ) / ((2 : ℚ) ^ k)⁻¹ = ((z * 2 ^ k : ℤ) : ℚ) := by
      rw [div_inv_eq_mul]
      push_cast
      ring
    rw [hdiv, roundNearestEven_intCast]
    push_cast
    field_simp

/-- Known values of the two formats: the floats nearest to 1/3 and to 7/10, a
tie between two floats, the least subnormal float, and the double nearest to
1/10. -/
theorem rounding_samples :
    f32 (1 / 3) = 11184811 / 33554432 ∧
    f32 (7 / 10) = 11744051 / 16777216 ∧
    f32 16777217 = 16777216 ∧
    f32 16777219 = 16777220 ∧
    f32 (-5 / 2) = -5 / 2 ∧
    f32 ((2 : ℚ) ^ (-149 : ℤ) * (3 / 4)) = (2 : ℚ) ^ (-149 : ℤ) ∧
    f32 ((2 : ℚ) ^ (-149 : ℤ) / 2) = 0 ∧
    f64 (1 / 10) = 3602879701896397 / 36028797018963968 := by
  decide!

/-! ## Loops that fill a buffer -/

/-- C3. The unit of `duration_string` for every stored duration `d` (in
nanoseconds): the nanosecond count and " nanoseconds" when `d ≤ 1000 ns`,
otherwise the whole microseconds and " microseconds" when `d ≤ 1000 µs`,
otherwise the whole milliseconds and " milliseconds"; 999 ns gives
"999 nanoseconds", 1000 µs gives "1000 microseconds", and 1000 ms and every
longer interval gives a milliseconds string. -/
theorem duration_string_units :
    (∀ d : ℤ, duration_string d =
      if d ≤ 1000 then toString d ++ " nanoseconds"
      else if d ≤ 1000000 then toString (d / 1000) ++ " microseconds"
      else toString (d / 1000000) ++ " milliseconds") ∧
    duration_string 999 = "999 nanoseconds" ∧
    duration_string 1000000 = "1000 microseconds" ∧
    duration_string 1000000000 = "1000 milliseconds" ∧
    ∀ d : ℤ, 1000000000 ≤ d → duration_string d = toString (d / 1000000) ++ " milliseconds" := by
  have main : ∀ d : ℤ, duration_string d =
      if d ≤ 1000 then toString d ++ " nanoseconds"
      else if d ≤ 1000000 then toString (d / 1000) ++ " microseconds"
      else toString (d / 1000000) ++ " milliseconds" := by
    intro d
    unfold duration_string
    by_cases h1 : d ≤ 1000
    · simp [h1]
    · have hd : 0 ≤ d := by omega
      have e1 : d.tdiv 1000 = d / 1000 := Int.tdiv_eq_ediv hd (by decide)
      have e2 : d.tdiv 1000000 = d / 1000000 := Int.tdiv_eq_ediv hd (by decide)
      rw [e1, e2]
      by_cases h2 : d ≤ 1000000
      · have h2' : d ≤ 1000 * 1000 := by omega
        simp [h1, h2, h2']
      · have h2' : ¬ d ≤ 1000 * 1000 := by omega
        simp [h1, h2, h2']
  refine ⟨main, by decide, by decide, by decide, ?_⟩
  intro d hd
  rw [main d, if_neg (by omega), if_neg (by omega)]

/-- Witness of C3: two and a half seconds. -/
theorem duration_string_units_witness : duration_string 2500000000 = "2500 milliseconds" :=
  (duration_string_units.2.2.2.2 2500000000 (by decide)).trans (by decide)

/-! ## The constructor -/

/-- C6. Construction fails with `std::invalid_argument` whenever the
configuration or the weights file name is empty, and then no Darknet call has
been made; with both non-empty it fails with `std::runtime_error` when the
loader returns no network, and succeeds otherwise. -/
theorem construct_outcome {Net : Type} (env : Env Net) (cfg weights names : String) :
    ((cfg = "" ∨ weights = "") →
      construct env cfg weights names = (.error .invalid_argument, [])) ∧
    (cfg ≠ "" → weights ≠ "" → env.load_network_custom cfg weights = none →
      (construct env cfg weights names).1 = .error .runtime_error) ∧
    (cfg ≠ "" → weights ≠ "" → ∀ net, env.load_network_custom cfg weights = some net →
      ∃ d, (construct env cfg weights names).1 = .ok d) := by
  refine ⟨?_, ?_, ?_⟩
  · intro h
    unfold construct
    by_cases hc : cfg = ""
    · simp [hc]
    · rcases h with h | h
      · exact absurd h hc
      · simp [hc, h]
  · intro hc hw hl
    simp [construct, hc, hw, hl]
  · intro hc hw net hl
    simp [construct, hc, hw, hl]

/-- Witness of C6: the three outcomes in the concrete environment. -/
theorem construct_outcome_witness :
    construct (sampleEnv [] []) "a.cfg" "" "" = (.error .invalid_argument, []) ∧
    (construct (sampleEnv [] []) "a.cfg" "bad.weights" "").1 = .error .runtime_error ∧
    ∃ d, (construct (sampleEnv [] []) "a.cfg" "a.weights" "").1 = .ok d :=
  ⟨(construct_outcome (sampleEnv [] []) "a.cfg" "" "").1 (Or.inr rfl),
   (construct_outcome (sampleEnv [] []) "a.cfg" "bad.weights" "").2.1 (by decide) (by decide) rfl,
   (construct_outcome (sampleEnv [] []) "a.cfg" "a.weights" "").2.2 (by decide) (by decide) ()
     rfl⟩

/-! ## Rounding to `int` -/

/-- The specification's rounding is the nearest integer, a halfway case going
away from zero. -/
theorem roundHalfAway_spec (q : ℚ) : IsRoundHalfAway q (roundHalfAway q) := by
  unfold IsRoundHalfAway roundHalfAway
  by_cases hq : 0 ≤ q
  · rw [if_pos hq]
    have hn : 0 ≤ ⌊q + 1 / 2⌋ := Int.floor_nonneg.mpr (by linarith)
    have hn' : (0 : ℚ) ≤ ((⌊q + 1 / 2⌋ : ℤ) : ℚ) := by exact_mod_cast hn
    have h1 := Int.floor_le (q + 1 / 2)
    have h2 := Int.lt_floor_add_one (q + 1 / 2)
    constructor
    · rw [abs_le]
      constructor <;> linarith
    · intro ht
      rw [abs_of_nonneg hq, abs_of_nonneg hn']
      rcases abs_eq (by norm_num : (0 : ℚ) ≤ 1 / 2) |>.mp ht with h | h
      · linarith
      · linarith
  · rw [if_neg hq]
    have hq' : q < 0 := lt_of_not_ge hq
    have hn : 0 ≤ ⌊-q + 1 / 2⌋ := Int.floor_nonneg.mpr (by linarith)
    have hn' : (0 : ℚ) ≤ ((⌊-q + 1 / 2⌋ : ℤ) : ℚ) := by exact_mod_cast hn
    have h1 := Int.floor_le (-q + 1 / 2)
    have h2 := Int.lt_floor_add_one (-q + 1 / 2)
    push_cast
    constructor
    · rw [abs_le]
      constructor <;> linarith
    · intro ht
      rw [abs_of_neg hq', abs_neg, abs_of_nonneg hn']
      rcases abs_eq (by norm_num : (0 : ℚ) ≤ 1 / 2) |>.mp ht with h | h
      · linarith
      · linarith

/-- The value of `std::round` with its fraction discarded is the specification's
rounding. -/
theorem truncate_stdRound (q : ℚ) : truncate (stdRound q) = roundHalfAway q := by
  unfold truncate stdRound roundHalfAway
  by_cases hq : 0 ≤ q
  · have hn : 0 ≤ ⌊q + 1 / 2⌋ := Int.floor_nonneg.mpr (by linarith)
    have hn' : (0 : ℚ) ≤ ((⌊q + 1 / 2⌋ : ℤ) : ℚ) := by exact_mod_cast hn
    rw [if_pos hq, if_pos hq, if_pos hn', Int.floor_intCast]
  · have e : ⌈q - 1 / 2⌉ = -⌊-q + 1 / 2⌋ := by
      rw [← Int.ceil_neg]
      congr 1
      ring
    rw [if_neg hq, if_neg hq]
    by_cases h0 : (0 : ℚ) ≤ ((⌈q - 1 / 2⌉ : ℤ) : ℚ)
    · rw [if_pos h0, Int.floor_intCast, e]
    · rw [if_neg h0, Int.ceil_intCast, e]

theorem toInt_stdRound_of_inRange (q : ℚ) (h : InIntRange (roundHalfAway q)) :
    toInt (stdRound q) = some (roundHalfAway q) := by
  unfold toInt
  rw [truncate_stdRound, if_pos h]

theorem toInt_stdRound_of_not_inRange (q : ℚ) (h : ¬ InIntRange (roundHalfAway q)) :
    toInt (stdRound q) = none := by
  unfold toInt
  rw [truncate_stdRound, if_neg h]

/-- Within the range of `int` the rectangle of the source is the specified one. -/
theorem decodeRect_of_inRange (bbox : Box) (cols rows : ℕ)
    (h : (specRect bbox cols rows).InIntRange) :
    decodeRect bbox cols rows = some (specRect bbox cols rows) := by
  obtain ⟨hx, hy, hw, hh⟩ := h
  simp only [specRect] at hx hy hw hh
  unfold decodeRect
  rw [toInt_stdRound_of_inRange _ hw, Option.some_bind, toInt_stdRound_of_inRange _ hh,
    Option.some_bind, toInt_stdRound_of_inRange _ hx, Option.some_bind,
    toInt_stdRound_of_inRange _ hy, Option.some_bind]
  rfl

/-- Outside the range of `int` the source has no rectangle. -/
theorem decodeRect_of_not_inRange (bbox : Box) (cols rows : ℕ)
    (h : ¬ (specRect bbox cols rows).InIntRange) : decodeRect bbox cols rows = none := by
  unfold decodeRect
  by_cases hw : InIntRange (roundHalfAway (f32 (bbox.w * f32 cols)))
  · rw [toInt_stdRound_of_inRange _ hw, Option.some_bind]
    by_cases hh : InIntRange (roundHalfAway (f32 (bbox.h * f32 rows)))
    · rw [toInt_stdRound_of_inRange _ hh, Option.some_bind]
      by_cases hx : InIntRange (roundHalfAway (f64 (f32 (bbox.x * f32 cols)
          - ((roundHalfAway (f32 (bbox.w * f32 cols)) : ℤ) : ℚ) / 2)))
      · rw [toInt_stdRound_of_inRange _ hx, Option.some_bind]
        by_cases hy : InIntRange (roundHalfAway (f64 (f32 (bbox.y * f32 rows)
            - ((roundHalfAway (f32 (bbox.h * f32 rows)) : ℤ) : ℚ) / 2)))
        · exact absurd ⟨hx, hy, hw, hh⟩ h
        · rw [toInt_stdRound_of_not_inRange _ hy, Option.none_bind]
      · rw [toInt_stdRound_of_not_inRange _ hx, Option.none_bind]
    · rw [toInt_stdRound_of_not_inRange _ hh, Option.none_bind]
  · rw [toInt_stdRound_of_not_inRange _ hw, Option.none_bind]

/-- The rounding relation determines the integer. -/
theorem IsRoundHalfAway.unique {q : ℚ} {n m : ℤ} (hn : IsRoundHalfAway q n)
    (hm : IsRoundHalfAway q m) : n = m := by
  obtain ⟨hn1, hn2⟩ := hn
  obtain ⟨hm1, hm2⟩ := hm
  rw [abs_le] at hn1 hm1
  obtain ⟨a1, a2⟩ := hn1
  obtain ⟨b1, b2⟩ := hm1
  by_contra hne
  rcases lt_or_gt_of_ne hne with hlt | hgt
  · have h1 : (n : ℚ) + 1 ≤ m := by exact_mod_cast hlt
    have en : (n : ℚ) - q = -(1 / 2) := by linarith
    have em : (m : ℚ) - q = 1 / 2 := by linarith
    have tn := hn2 (by rw [en, abs_neg, abs_of_pos]; norm_num)
    have tm := hm2 (by rw [em, abs_of_pos]; norm_num)
    by_cases hq : 0 ≤ q
    · have hn0 : (n : ℚ) < q := by linarith
      by_cases hn1 : 0 ≤ (n : ℚ)
      · rw [abs_of_nonneg hq, abs_of_nonneg hn1] at tn
        linarith
      · have hz : (n : ℤ) ≤ -1 := by
          have : (n : ℚ) < 0 := lt_of_not_ge hn1
          have : n < 0 := by exact_mod_cast this
          omega
        have hz' : (n : ℚ) ≤ -1 := by exact_mod_cast hz
        linarith
    · have hq' : q < 0 := lt_of_not_ge hq
      by_cases hm1 : (m : ℚ) ≤ 0
      · rw [abs_of_neg hq', abs_of_nonpos hm1] at tm
        linarith
      · have hz : (1 : ℤ) ≤ m := by
          have : (0 : ℚ) < m := lt_of_not_ge hm1
          have : 0 < m := by exact_mod_cast this
          omega
        have hz' : (1 : ℚ) ≤ m := by exact_mod_cast hz
        linarith
  · have h1 : (m : ℚ) + 1 ≤ n := by exact_mod_cast hgt
    have en : (n : ℚ) - q = 1 / 2 := by linarith
    have em : (m : ℚ) - q = -(1 / 2) := by linarith
    have tn := hn2 (by rw [en, abs_of_pos]; norm_num)
    have tm := hm2 (by rw [em, abs_neg, abs_of_pos]; norm_num)
    by_cases hq : 0 ≤ q
    · by_cases hm1 : 0 ≤ (m : ℚ)
      · rw [abs_of_nonneg hq, abs_of_nonneg hm1] at tm
        linarith
      · have hz : (m : ℤ) ≤ -1 := by
          have : (m : ℚ) < 0 := lt_of_not_ge hm1
          have : m < 0 := by exact_mod_cast this
          omega
        have hz' : (m : ℚ) ≤ -1 := by exact_mod_cast hz
        linarith
    · have hq' : q < 0 := lt_of_not_ge hq
      by_cases hn1 : (n : ℚ) ≤ 0
      · rw [abs_of_neg hq', abs_of_nonpos hn1] at tn
        linarith
      · have hz : (1 : ℤ) ≤ n := by
          have : (0 : ℚ) < n := lt_of_not_ge hn1
          have : 0 < n := by exact_mod_cast this
          omega
        have hz' : (1 : ℚ) ≤ n := by exact_mod_cast hz
        linarith


/-! ## The decode loop -/

theorem resolveName_of_resolves (names : List String) (class_id : ℤ)
    (h : NameResolves names class_id) :
    resolveName names class_id = .ok (specName names class_id) := by
  unfold resolveName specName
  rcases h with h | ⟨h0, h1⟩
  · rw [if_neg (by omega), if_neg (by omega)]
  · have h2 : class_id.toNat < names.length := by omega
    rw [if_pos (by omega), if_pos ⟨h0, h2⟩, if_pos (by omega)]

theorem resolveName_of_not_resolves (names : List String) (class_id : ℤ)
    (h : ¬ NameResolves names class_id) :
    resolveName names class_id = .error .out_of_range := by
  unfold NameResolves at h
  unfold resolveName
  have h1 : (names.length : ℤ) ≥ class_id := by omega
  rw [if_pos h1, if_neg]
  rintro ⟨h0, h2⟩
  omega

theorem forEach_cons_ok {σ ι : Type} (body : σ → ι → σ × Option Error) (i : ι) (rest : List ι)
    (s s' : σ) (h : body s i = (s', none)) :
    forEach body (i :: rest) s = forEach body rest s' := by
  simp [forEach, h]

theorem forEach_cons_error {σ ι : Type} (body : σ → ι → σ × Option Error) (i : ι)
    (rest : List ι) (s s' : σ) (e : Error) (h : body s i = (s', some e)) :
    forEach body (i :: rest) s = (s', some e) := by
  simp [forEach, h]

theorem decodeClass_accept (names : List String) (threshold : ℚ) (cols rows : ℕ)
    (det : Detection) (results : List PredictionResult) (k : ℕ)
    (hp : threshold ≤ det.prob k) (hr : (specRect det.bbox cols rows).InIntRange)
    (hn : NameResolves names det.sort_class) :
    decodeClass names threshold cols rows det results k
      = (results ++ [specResult names cols rows det k], none) := by
  unfold decodeClass
  rw [if_pos hp, decodeRect_of_inRange _ _ _ hr, resolveName_of_resolves names _ hn]
  rfl

theorem decodeClass_throw (names : List String) (threshold : ℚ) (cols rows : ℕ)
    (det : Detection) (results : List PredictionResult) (k : ℕ)
    (hp : threshold ≤ det.prob k) (hr : (specRect det.bbox cols rows).InIntRange)
    (hn : ¬ NameResolves names det.sort_class) :
    decodeClass names threshold cols rows det results k = (results, some .out_of_range) := by
  unfold decodeClass
  rw [if_pos hp, decodeRect_of_inRange _ _ _ hr, resolveName_of_not_resolves names _ hn]

theorem decodeClass_undefined (names : List String) (threshold : ℚ) (cols rows : ℕ)
    (det : Detection) (results : List PredictionResult) (k : ℕ)
    (hp : threshold ≤ det.prob k) (hr : ¬ (specRect det.bbox cols rows).InIntRange) :
    decodeClass names threshold cols rows det results k = (results, some .undefined) := by
  unfold decodeClass
  rw [if_pos hp, decodeRect_of_not_inRange _ _ _ hr]

theorem decodeClass_skip (names : List String) (threshold : ℚ) (cols rows : ℕ)
    (det : Detection) (results : List PredictionResult) (k : ℕ)
    (hp : ¬ threshold ≤ det.prob k) :
    decodeClass names threshold cols rows det results k = (results, none) := by
  unfold decodeClass
  rw [if_neg hp]

/-- An accepted pair without rectangle or without name ends the loop. -/
theorem decodeClass_fail (names : List String) (threshold : ℚ) (cols rows : ℕ)
    (det : Detection) (results : List PredictionResult) (k : ℕ)
    (hp : threshold ≤ det.prob k)
    (h : ¬ ((specRect det.bbox cols rows).InIntRange ∧ NameResolves names det.sort_class)) :
    ∃ e, decodeClass names threshold cols rows det results k = (results, some e) := by
  by_cases hr : (specRect det.bbox cols rows).InIntRange
  · exact ⟨_, decodeClass_throw names threshold cols rows det results k hp hr
      (fun hn => h ⟨hr, hn⟩)⟩
  · exact ⟨_, decodeClass_undefined names threshold cols rows det results k hp hr⟩

/-- The accepted class indices of a detection, among `ks`. -/
theorem forEach_decodeClass_ok (names : List String) (threshold : ℚ) (cols rows : ℕ)
    (det : Detection) (ks : List ℕ) (results : List PredictionResult)
    (h : ∀ k ∈ ks, threshold ≤ det.prob k →
      (specRect det.bbox cols rows).InIntRange ∧ NameResolves names det.sort_class) :
    forEach (decodeClass names threshold cols rows det) ks results
      = (results ++ (ks.filter fun k => decide (threshold ≤ det.prob k)).map
          (specResult names cols rows det), none) := by
  induction ks generalizing results with
  | nil => simp [forEach]
  | cons k ks ih =>
    have ih' := fun r => ih r (fun j hj => h j (List.mem_cons_of_mem _ hj))
    by_cases hp : threshold ≤ det.prob k
    · obtain ⟨hr, hn⟩ := h k (List.mem_cons_self _ _) hp
      rw [forEach_cons_ok _ _ _ _ _
        (decodeClass_accept names threshold cols rows det results k hp hr hn), ih']
      simp [List.filter_cons, hp]
    · rw [forEach_cons_ok _ _ _ _ _
        (decodeClass_skip names threshold cols rows det results k hp), ih']
      simp [List.filter_cons, hp]

theorem forEach_decodeClass_fail (names : List String) (threshold : ℚ) (cols rows : ℕ)
    (det : Detection) (ks : List ℕ) (results : List PredictionResult)
    (h : ∃ k ∈ ks, threshold ≤ det.prob k)
    (hn : ¬ ((specRect det.bbox cols rows).InIntRange ∧ NameResolves names det.sort_class)) :
    ∃ r e, forEach (decodeClass names threshold cols rows det) ks results = (r, some e) := by
  induction ks generalizing results with
  | nil =>
    obtain ⟨k, hk, _⟩ := h
    simp at hk
  | cons k ks ih =>
    by_cases hp : threshold ≤ det.prob k
    · obtain ⟨e, he⟩ := decodeClass_fail names threshold cols rows det results k hp hn
      exact ⟨results, e, forEach_cons_error _ _ _ _ _ _ he⟩
    · rw [forEach_cons_ok _ _ _ _ _
        (decodeClass_skip names threshold cols rows det results k hp)]
      apply ih
      obtain ⟨j, hj, hj'⟩ := h
      rcases List.mem_cons.mp hj with rfl | hj
      · exact absurd hj' hp
      · exact ⟨j, hj, hj'⟩

/-- The decode loop completes exactly when every accepted pair has a rectangle
within the range of `int` and a class id for which a name is produced, and
then it has appended the specified list. -/
theorem decode_eq_iff (names : List String) (threshold : ℚ) (cols rows : ℕ)
    (dets : List Detection) (results l : List PredictionResult) :
    decode names threshold cols rows dets results = (l, none) ↔
      AcceptedDecode names threshold cols rows dets ∧
      l = results ++ specDecode names threshold cols rows dets := by
  induction dets generalizing results with
  | nil => simp [decode, forEach, AcceptedDecode, specDecode, eq_comm]
  | cons det dets ih =>
    unfold decode at ih ⊢
    by_cases hd : ∀ k ∈ List.range det.classes.toNat, threshold ≤ det.prob k →
        (specRect det.bbox cols rows).InIntRange ∧ NameResolves names det.sort_class
    · have hstep := forEach_decodeClass_ok names threshold cols rows det
        (List.range det.classes.toNat) results hd
      rw [forEach_cons_ok _ _ _ _ _ hstep, ih]
      have hA : AcceptedDecode names threshold cols rows (det :: dets) ↔
          AcceptedDecode names threshold cols rows dets := by
        constructor
        · intro h d hdm
          exact h d (List.mem_cons_of_mem _ hdm)
        · intro h d hdm
          rcases List.mem_cons.mp hdm with rfl | hdm
          · intro k hk
            exact hd k (List.mem_range.mpr hk)
          · exact h d hdm
      rw [hA]
      simp [specDecode, List.flatMap_cons, List.append_assoc]
    · push_neg at hd
      obtain ⟨k, hk, hp, hn⟩ := hd
      obtain ⟨r, e, hr⟩ := forEach_decodeClass_fail names threshold cols rows det
        (List.range det.classes.toNat) results ⟨k, hk, hp⟩
        (fun hh => hn hh.1 hh.2)
      rw [forEach_cons_error _ _ _ _ _ _ hr]
      constructor
      · intro h
        simp at h
      · rintro ⟨h, _⟩
        obtain ⟨h1, h2⟩ := h det (List.mem_cons_self _ _) k (List.mem_range.mp hk) hp
        exact absurd h2 (hn h1)

/-- The specified list for a higher threshold is a sublist of the one for a
lower threshold. -/
theorem specDecode_sublist (names : List String) (t1 t2 : ℚ) (cols rows : ℕ)
    (dets : List Detection) (ht : t1 ≤ t2) :
    (specDecode names t2 cols rows dets).Sublist (specDecode names t1 cols rows dets) := by
  induction dets with
  | nil => simp [specDecode]
  | cons det dets ih =>
    unfold specDecode at ih ⊢
    rw [List.flatMap_cons, List.flatMap_cons]
    apply List.Sublist.append _ ih
    apply List.Sublist.map
    apply List.monotone_filter_right
    intro k hk
    simp only [decide_eq_true_eq] at hk ⊢
    exact le_trans ht hk

/-- When the decode loop completes with a threshold, it completes with every
higher threshold, with a sublist. -/
theorem decode_sublist_of_le (names : List String) (t1 t2 : ℚ) (cols rows : ℕ)
    (dets : List Detection) (l1 : List PredictionResult) (ht : t1 ≤ t2)
    (h1 : decode names t1 cols rows dets [] = (l1, none)) :
    ∃ l2, decode names t2 cols rows dets [] = (l2, none) ∧ l2.Sublist l1 := by
  rw [decode_eq_iff] at h1
  obtain ⟨hA, hl⟩ := h1
  rw [List.nil_append] at hl
  refine ⟨specDecode names t2 cols rows dets, ?_, ?_⟩
  · rw [decode_eq_iff]
    refine ⟨?_, (List.nil_append _).symm⟩
    intro det hdet k hk hp
    exact hA det hdet k hk (le_trans ht hp)
  · rw [hl]
    exact specDecode_sublist names t1 t2 cols rows _ ht

/-! ## The decode loop at a class id without name -/

/-- C2, the code at the failing input: a name table of one name, suppression
off, and a raw detection set of a box of class 1 with probability 5/8 and a
box of class 0 with probability 7/8.  With the threshold 1/2 the first box is
accepted, `names.at(1)` throws `std::out_of_range` and `predict` leaves the
list empty; with the threshold 13/16 `predict` returns the result of the
second box, which occurs in no list of the run with 1/2. -/
theorem predict_thresholds_at_unnamed_class :
    (predictMat
      (sampleEnv [sampleDetection ⟨1 / 2, 1 / 2, 1 / 4, 1 / 4⟩ (5 / 8) 1,
                  sampleDetection ⟨1 / 2, 1 / 2, 1 / 4, 1 / 4⟩ (7 / 8) 0] [])
      { sampleDetector ["barcode"] with non_maximal_suppression_threshold := 0 }
      sampleMat (1 / 2)).1 = .error .out_of_range ∧
    (predictMat
      (sampleEnv [sampleDetection ⟨1 / 2, 1 / 2, 1 / 4, 1 / 4⟩ (5 / 8) 1,
                  sampleDetection ⟨1 / 2, 1 / 2, 1 / 4, 1 / 4⟩ (7 / 8) 0] [])
      { sampleDetector ["barcode"] with non_maximal_suppression_threshold := 0 }
      sampleMat (1 / 2)).2.prediction_results = [] ∧
    (predictMat
      (sampleEnv [sampleDetection ⟨1 / 2, 1 / 2, 1 / 4, 1 / 4⟩ (5 / 8) 1,
                  sampleDetection ⟨1 / 2, 1 / 2, 1 / 4, 1 / 4⟩ (7 / 8) 0] [])
      { sampleDetector ["barcode"] with non_maximal_suppression_threshold := 0 }
      sampleMat (13 / 16)).1 = .ok [⟨⟨1, 1, 1, 1⟩, 0, 7 / 8, "barcode"⟩] := by
  refine ⟨?_, ?_, ?_⟩
  · decide!
  · decide!
  · decide!

/-- C10, the code at the failing input: a name table of one name, suppression
off, the threshold 1/2 and a raw detection set of three boxes of the classes
0, 1 and 0 with the probabilities 7/8, 3/4 and 5/8.  The threshold accepts
three (box, class index) pairs; `predict` appends the result of the first,
throws `std::out_of_range` from `names.at(1)` at the second and returns no
list, and the list it leaves stored has one result. -/
theorem predict_stops_at_unnamed_class :
    (specDecode ["barcode"] (1 / 2) 2 2
      [sampleDetection ⟨1 / 2, 1 / 2, 1 / 4, 1 / 4⟩ (7 / 8) 0,
       sampleDetection ⟨1 / 2, 1 / 2, 1 / 4, 1 / 4⟩ (3 / 4) 1,
       sampleDetection ⟨1 / 2, 1 / 2, 1 / 4, 1 / 4⟩ (5 / 8) 0]).length = 3 ∧
    (predictMat
      (sampleEnv [sampleDetection ⟨1 / 2, 1 / 2, 1 / 4, 1 / 4⟩ (7 / 8) 0,
                  sampleDetection ⟨1 / 2, 1 / 2, 1 / 4, 1 / 4⟩ (3 / 4) 1,
                  sampleDetection ⟨1 / 2, 1 / 2, 1 / 4, 1 / 4⟩ (5 / 8) 0] [])
      { sampleDetector ["barcode"] with non_maximal_suppression_threshold := 0 }
      sampleMat (1 / 2)).1 = .error .out_of_range ∧
    (predictMat
      (sampleEnv [sampleDetection ⟨1 / 2, 1 / 2, 1 / 4, 1 / 4⟩ (7 / 8) 0,
                  sampleDetection ⟨1 / 2, 1 / 2, 1 / 4, 1 / 4⟩ (3 / 4) 1,
                  sampleDetection ⟨1 / 2, 1 / 2, 1 / 4, 1 / 4⟩ (5 / 8) 0] [])
      { sampleDetector ["barcode"] with non_maximal_suppression_threshold := 0 }
      sampleMat (1 / 2)).2.prediction_results = [⟨⟨1, 1, 1, 1⟩, 0, 7 / 8, "barcode"⟩] := by
  refine ⟨?_, ?_, ?_⟩
  · decide!
  · decide!
  · decide!

/-! ## The rectangle of a result -/

/-- C9, as the claim states it, fails: for an accepted box of normalized width
10000000000 in an image of 10 columns the rounded width is 99999997952, which
is no value of `int`; the conversion of line 291 is undefined, the loop has no
rectangle for the pair, and no rectangle with `int` fields has this width.
The same holds for the normalized width 1 in an image of 2147483647 columns,
where the `float` product is 2147483648. -/
theorem decodeRect_out_of_int :
    roundHalfAway (f32 ((10000000000 : ℚ) * f32 (10 : ℕ))) = 99999997952 ∧
    decodeRect ⟨1 / 2, 1 / 2, 10000000000, 1 / 2⟩ 10 10 = none ∧
    decodeClass ["barcode"] (1 / 2) 10 10
      (sampleDetection ⟨1 / 2, 1 / 2, 10000000000, 1 / 2⟩ (7 / 8) 0) [] 0
      = ([], some .undefined) ∧
    (∀ r : Rect, r.InIntRange →
      ¬ IsRoundHalfAway (f32 ((10000000000 : ℚ) * f32 (10 : ℕ))) r.width) ∧
    roundHalfAway (f32 ((1 : ℚ) * f32 (2147483647 : ℕ))) = 2147483648 ∧
    decodeRect ⟨1 / 2, 1 / 2, 1, 1⟩ 2147483647 1 = none := by
  have e : roundHalfAway (f32 ((10000000000 : ℚ) * f32 (10 : ℕ))) = 99999997952 := by decide!
  refine ⟨e, by decide!, by decide!, ?_, by decide!, by decide!⟩
  intro r hr hround
  have hu := IsRoundHalfAway.unique hround (roundHalfAway_spec _)
  rw [e] at hu
  obtain ⟨_, _, hw, _⟩ := hr
  rw [hu] at hw
  exact absurd hw (by decide)

/-- C9, amended. For every accepted (box, class) pair whose four rounded values
are values of `int`, the loop computes the rectangle with: as width the float
product of the normalized width and the image width, rounded half away from
zero; as height the same for the heights; as x the double difference of the
float product of the normalized centre and the image width and half the
rounded integer width, rounded half away from zero; as y the same with the
heights.  Nothing is clamped.  The loop appends the result with this
rectangle, or throws `std::out_of_range`. -/
theorem decodeClass_rect (names : List String) (threshold : ℚ) (cols rows : ℕ)
    (det : Detection) (results : List PredictionResult) (k : ℕ)
    (hp : threshold ≤ det.prob k) (hr : (specRect det.bbox cols rows).InIntRange) :
    ∃ r : Rect, decodeRect det.bbox cols rows = some r ∧
      IsRoundHalfAway (f32 (det.bbox.w * f32 cols)) r.width ∧
      IsRoundHalfAway (f32 (det.bbox.h * f32 rows)) r.height ∧
      IsRoundHalfAway (f64 (f32 (det.bbox.x * f32 cols) - (r.width : ℚ) / 2)) r.x ∧
      IsRoundHalfAway (f64 (f32 (det.bbox.y * f32 rows) - (r.height : ℚ) / 2)) r.y ∧
      (decodeClass names threshold cols rows det results k
          = (results ++ [{ rect := r, class_id := det.sort_class,
                           probability := det.prob k,
                           name := specName names det.sort_class }], none) ∨
        decodeClass names threshold cols rows det results k
          = (results, some .out_of_range)) := by
  refine ⟨specRect det.bbox cols rows, decodeRect_of_inRange _ _ _ hr,
    roundHalfAway_spec _, roundHalfAway_spec _, roundHalfAway_spec _, roundHalfAway_spec _, ?_⟩
  by_cases hn : NameResolves names det.sort_class
  · exact Or.inl (decodeClass_accept names threshold cols rows det results k hp hr hn)
  · exact Or.inr (decodeClass_throw names threshold cols rows det results k hp hr hn)

/-- Witness of C9 as amended: a box twice the size of a 10 by 10 image, centred
in it; the rectangle starts at (-5, -5) and is 20 by 20. -/
theorem decodeClass_rect_witness :
    decodeRect ⟨1 / 2, 1 / 2, 2, 2⟩ 10 10 = some ⟨-5, -5, 20, 20⟩ ∧
    decodeClass ["barcode"] (1 / 2) 10 10 (sampleDetection ⟨1 / 2, 1 / 2, 2, 2⟩ (7 / 8) 0) [] 0
      = ([⟨⟨-5, -5, 20, 20⟩, 0, 7 / 8, "barcode"⟩], none) ∧
    ∃ r : Rect, decodeRect ⟨1 / 2, 1 / 2, 2, 2⟩ 10 10 = some r ∧
      IsRoundHalfAway (f32 ((2 : ℚ) * f32 (10 : ℕ))) r.width ∧
      IsRoundHalfAway (f32 ((2 : ℚ) * f32 (10 : ℕ))) r.height ∧
      IsRoundHalfAway (f64 (f32 ((1 / 2 : ℚ) * f32 (10 : ℕ)) - (r.width : ℚ) / 2)) r.x ∧
      IsRoundHalfAway (f64 (f32 ((1 / 2 : ℚ) * f32 (10 : ℕ)) - (r.height : ℚ) / 2)) r.y ∧
      (decodeClass ["barcode"] (1 / 2) 10 10
          (sampleDetection ⟨1 / 2, 1 / 2, 2, 2⟩ (7 / 8) 0) [] 0
          = ([] ++ [{ rect := r, class_id := 0, probability := 7 / 8,
                      name := specName ["barcode"] 0 }], none) ∨
        decodeClass ["barcode"] (1 / 2) 10 10
          (sampleDetection ⟨1 / 2, 1 / 2, 2, 2⟩ (7 / 8) 0) [] 0
          = ([], some .out_of_range)) :=
  ⟨by decide!, by decide!,
    decodeClass_rect ["barcode"] (1 / 2) 10 10 (sampleDetection ⟨1 / 2, 1 / 2, 2, 2⟩ (7 / 8) 0)
      [] 0 (by norm_num [sampleDetection]) (by decide!)⟩

/-! ## The function `predict` -/

/-- The function `predict` on a detector with a network and an image: the
decode loop on this call's raw detections, started from the empty list. -/
theorem predict_eq {Net : Type} (env : Env Net) (self : Detector Net) (new_threshold : ℚ)
    (net : Net) (hnet : self.net = some net) (himg : self.original_image.empty = false) :
    predict env self new_threshold =
      match decode self.names (updateThreshold self.threshold new_threshold)
          self.original_image.cols self.original_image.rows
          (rawDetections env (env.network_predict net (forwardInput env net self.original_image))
            self.original_image (updateThreshold self.threshold new_threshold)
            self.hierchy_threshold self.non_maximal_suppression_threshold) [] with
      | (results, some e) =>
        (.error e,
          { self with
            prediction_results := results
            annotated_image := Mat.null
            threshold := updateThreshold self.threshold new_threshold
            net := some (env.network_predict net (forwardInput env net self.original_image))
            duration := env.forward_time net (forwardInput env net self.original_image) })
      | (results, none) =>
        (.ok results,
          { self with
            prediction_results := results
            annotated_image := Mat.null
            threshold := updateThreshold self.threshold new_threshold
            net := some (env.network_predict net (forwardInput env net self.original_image))
            duration := env.forward_time net (forwardInput env net self.original_image) }) := by
  unfold predict
  simp only [hnet, himg]
  rfl

/-- The outcome of `predict` does not depend on the list stored before. -/
theorem predict_forgets {Net : Type} (env : Env Net) (self : Detector Net) (new_threshold : ℚ)
    (earlier : List PredictionResult) :
    predict env { self with prediction_results := earlier } new_threshold
      = predict env self new_threshold := by
  unfold predict
  rfl

/-- C4. A successful `predict` returns and stores the list decoded from this
call's raw detections, image size and thresholds, whatever list an earlier
call left in `prediction_results`: the same call from the empty list, and
from every other stored list, has the same outcome. -/
theorem predict_replaces_results {Net : Type} (env : Env Net) (self self' : Detector Net)
    (new_threshold : ℚ) (results : List PredictionResult)
    (h : predict env self new_threshold = (.ok results, self')) :
    self'.prediction_results = results ∧
    (∀ earlier : List PredictionResult,
      predict env { self with prediction_results := earlier } new_threshold
        = (.ok results, self')) ∧
    ∃ net, self.net = some net ∧
      results = specDecode self.names self'.threshold self.original_image.cols
        self.original_image.rows
        (rawDetections env (env.network_predict net (forwardInput env net self.original_image))
          self.original_image self'.threshold self.hierchy_threshold
          self.non_maximal_suppression_threshold) := by
  have hforget : ∀ earlier : List PredictionResult,
      predict env { self with prediction_results := earlier } new_threshold
        = (.ok results, self') := by
    intro earlier
    rw [predict_forgets, h]
  rcases Option.eq_none_or_eq_some self.net with hnet | ⟨net, hnet⟩
  · unfold predict at h
    simp [hnet] at h
  · rcases Bool.eq_false_or_eq_true self.original_image.empty with himg | himg
    · unfold predict at h
      simp [hnet, himg] at h
    · rw [predict_eq env self new_threshold net hnet himg] at h
      rcases hdec : decode self.names (updateThreshold self.threshold new_threshold)
          self.original_image.cols self.original_image.rows
          (rawDetections env (env.network_predict net (forwardInput env net self.original_image))
            self.original_image (updateThreshold self.threshold new_threshold)
            self.hierchy_threshold self.non_maximal_suppression_threshold) [] with ⟨l, _ | e⟩
      · rw [hdec] at h
        simp only [Prod.mk.injEq, Except.ok.injEq] at h
        obtain ⟨hl, hs⟩ := h
        subst hl
        subst hs
        refine ⟨rfl, hforget, net, hnet, ?_⟩
        have := (decode_eq_iff _ _ _ _ _ _ _).mp hdec
        simpa using this.2
      · rw [hdec] at h
        simp at h

/-- Witness of C4: a second `predict` on a detector that holds a result of an
earlier call. -/
theorem predict_replaces_results_witness :
    ∃ self', predict (sampleEnv [sampleDetection ⟨1 / 2, 1 / 2, 1 / 4, 1 / 4⟩ (9 / 10) 0] [])
        { sampleDetector ["barcode"] with
          original_image := sampleMat
          prediction_results := [⟨⟨1, 2, 3, 4⟩, 7, 1, "earlier"⟩] } (-1)
      = (.ok [⟨⟨1, 1, 1, 1⟩, 0, 9 / 10, "barcode"⟩], self') ∧
    self'.prediction_results = [⟨⟨1, 1, 1, 1⟩, 0, 9 / 10, "barcode"⟩] ∧
    ∀ earlier : List PredictionResult,
      predict (sampleEnv [sampleDetection ⟨1 / 2, 1 / 2, 1 / 4, 1 / 4⟩ (9 / 10) 0] [])
        { sampleDetector ["barcode"] with
          original_image := sampleMat
          prediction_results := earlier } (-1)
        = (.ok [⟨⟨1, 1, 1, 1⟩, 0, 9 / 10, "barcode"⟩], self') := by
  have hrun : (predict (sampleEnv [sampleDetection ⟨1 / 2, 1 / 2, 1 / 4, 1 / 4⟩ (9 / 10) 0] [])
        { sampleDetector ["barcode"] with
          original_image := sampleMat
          prediction_results := [⟨⟨1, 2, 3, 4⟩, 7, 1, "earlier"⟩] } (-1)).1
      = .ok [⟨⟨1, 1, 1, 1⟩, 0, 9 / 10, "barcode"⟩] := by decide!
  refine ⟨_, Prod.ext hrun rfl, ?_⟩
  have h := predict_replaces_results (sampleEnv [sampleDetection ⟨1 / 2, 1 / 2, 1 / 4, 1 / 4⟩
      (9 / 10) 0] [])
    { sampleDetector ["barcode"] with
      original_image := sampleMat
      prediction_results := [⟨⟨1, 2, 3, 4⟩, 7, 1, "earlier"⟩] } _ (-1) _ (Prod.ext hrun rfl)
  exact ⟨h.1, fun earlier => h.2.1 earlier⟩

/-! ## The name of class 0 with an empty name table -/

/-- C7, the code at the failing input: a detector constructed without a name
list has an empty name table, and `predict` on a raw detection set with one
accepted box of class id 0 throws `std::out_of_range` from `names.at(0)`
instead of naming the result "#0". -/
theorem empty_names_class_zero_throws :
    resolveName [] 0 = .error .out_of_range ∧
    ∃ d, (construct (sampleEnv [sampleDetection ⟨1 / 2, 1 / 2, 1 / 4, 1 / 4⟩ (9 / 10) 0] [])
        "a.cfg" "a.weights" "").1 = .ok d ∧
      d.names = [] ∧
      (predictMat (sampleEnv [sampleDetection ⟨1 / 2, 1 / 2, 1 / 4, 1 / 4⟩ (9 / 10) 0] [])
        d sampleMat (-1)).1 = .error .out_of_range := by
  have h1 : resolveName [] 0 = .error .out_of_range := by decide
  have h2 : (construct (sampleEnv [sampleDetection ⟨1 / 2, 1 / 2, 1 / 4, 1 / 4⟩ (9 / 10) 0] [])
      "a.cfg" "a.weights" "").1 = .ok (sampleDetector []) := rfl
  have h3 : (predictMat (sampleEnv [sampleDetection ⟨1 / 2, 1 / 2, 1 / 4, 1 / 4⟩ (9 / 10) 0] [])
      (sampleDetector []) sampleMat (-1)).1 = .error .out_of_range := by decide!
  exact ⟨h1, sampleDetector [], h2, rfl, h3⟩

/-! ## Suppression -/

/-- C8, the code at the failing input: a detector constructed without a name
list, the threshold 1/4, and a raw detection set of two boxes of class 0 over
one another with the probabilities 0.9 and 0.4 (as floats).  With the
suppression threshold 0 the primitive is not applied and `predict` throws
`std::out_of_range` from `names.at(0)` instead of returning both boxes; with
the suppression threshold 0.45 and a primitive that suppresses the second box
`predict` throws in the same place instead of returning the first box. -/
theorem predict_two_overlapping_throws :
    suppress (sampleEnv [] []) () 0
      [sampleDetection ⟨1 / 2, 1 / 2, 1 / 4, 1 / 4⟩ (f32 (9 / 10)) 0,
       sampleDetection ⟨1 / 2, 1 / 2, 1 / 8, 1 / 8⟩ (f32 (4 / 10)) 0]
      = [sampleDetection ⟨1 / 2, 1 / 2, 1 / 4, 1 / 4⟩ (f32 (9 / 10)) 0,
         sampleDetection ⟨1 / 2, 1 / 2, 1 / 8, 1 / 8⟩ (f32 (4 / 10)) 0] ∧
    (predictMat
      (sampleEnv [sampleDetection ⟨1 / 2, 1 / 2, 1 / 4, 1 / 4⟩ (f32 (9 / 10)) 0,
                  sampleDetection ⟨1 / 2, 1 / 2, 1 / 8, 1 / 8⟩ (f32 (4 / 10)) 0] [])
      { sampleDetector [] with non_maximal_suppression_threshold := 0 }
      sampleMat (1 / 4)).1 = .error .out_of_range ∧
    (predictMat
      (sampleEnv [sampleDetection ⟨1 / 2, 1 / 2, 1 / 4, 1 / 4⟩ (f32 (9 / 10)) 0,
                  sampleDetection ⟨1 / 2, 1 / 2, 1 / 8, 1 / 8⟩ (f32 (4 / 10)) 0] [])
      (sampleDetector []) sampleMat (1 / 4)).1 = .error .out_of_range := by
  refine ⟨rfl, ?_, ?_⟩
  · decide!
  · decide!

/-! ## The function `annotate` -/

theorem annotate_error_iff {Net : Type} (env : Env Net) (self : Detector Net) (t : ℚ) (f : Bool) :
    (annotate env self t f).1 = .error .logic_error ↔ self.original_image.empty = true := by
  unfold annotate
  by_cases h : self.original_image.empty = true
  · simp [h]
  · simp [h]

theorem annotate_ok_of_image {Net : Type} (env : Env Net) (self : Detector Net) (t : ℚ) (f : Bool)
    (h : self.original_image.empty = false) : ∃ img, (annotate env self t f).1 = .ok img := by
  unfold annotate
  simp [h]

/-- A call that brings no image leaves a detector without image as it is. -/
theorem Call.run_of_empty {Net : Type} (env : Env Net) (self : Detector Net) (c : Call)
    (hs : self.original_image.empty = true)
    (hc : ∀ m, c.image env = some m → m.empty = true) : c.run env self = self := by
  cases c with
  | predictMat mat t =>
    have := hc mat rfl
    simp [Call.run, DarkHelp.predictMat, this]
  | predictFile fn t =>
    have := hc (env.imread fn) rfl
    simp [Call.run, DarkHelp.predictFile, this]
  | predictImage img t =>
    have := hc (convert_darknet_image_to_opencv_mat img) rfl
    simp [Call.run, DarkHelp.predictImage, this]
  | annotate t d =>
    simp [Call.run, DarkHelp.annotate, hs]

theorem runCalls_of_empty {Net : Type} (env : Env Net) (self : Detector Net) (calls : List Call)
    (hs : self.original_image.empty = true)
    (hc : ∀ c ∈ calls, ∀ m, c.image env = some m → m.empty = true) :
    runCalls env self calls = self := by
  induction calls with
  | nil => rfl
  | cons c calls ih =>
    unfold runCalls at ih ⊢
    rw [List.foldl_cons, Call.run_of_empty env self c hs (hc c (List.mem_cons_self _ _))]
    exact ih (fun c' hc' => hc c' (List.mem_cons_of_mem _ hc'))

theorem construct_image_empty {Net : Type} (env : Env Net) (cfg weights names : String)
    (d : Detector Net) (h : (construct env cfg weights names).1 = .ok d) :
    d.original_image.empty = true := by
  unfold construct at h
  by_cases hc : cfg = ""
  · simp [hc] at h
  · by_cases hw : weights = ""
    · simp [hc, hw] at h
    · rcases hl : env.load_network_custom cfg weights with _ | net
      · simp [hc, hw, hl] at h
      · simp only [hc, hw, hl, if_false, Except.ok.injEq] at h
        rw [← h]
        rfl

/-- The function `predict` keeps the stored image. -/
theorem predict_image {Net : Type} (env : Env Net) (self : Detector Net) (t : ℚ) :
    (predict env self t).2.original_image = self.original_image := by
  rcases Option.eq_none_or_eq_some self.net with hnet | ⟨net, hnet⟩
  · unfold predict
    simp [hnet]
  · rcases Bool.eq_false_or_eq_true self.original_image.empty with himg | himg
    · unfold predict
      simp [hnet, himg]
    · rw [predict_eq env self t net hnet himg]
      generalize decode self.names (updateThreshold self.threshold t)
        self.original_image.cols self.original_image.rows
        (rawDetections env (env.network_predict net (forwardInput env net self.original_image))
          self.original_image (updateThreshold self.threshold t)
          self.hierchy_threshold self.non_maximal_suppression_threshold) [] = out
      rcases out with ⟨l, _ | e⟩ <;> rfl

theorem predictMat_succeeds_image {Net : Type} (env : Env Net) (self : Detector Net) (mat : Mat)
    (t : ℚ) (h : (predictMat env self mat t).1.toBool = true) :
    (predictMat env self mat t).2.original_image.empty = false := by
  unfold predictMat at h ⊢
  rcases Bool.eq_false_or_eq_true mat.empty with hm | hm
  · simp [hm, Except.toBool] at h
  · simp only [hm] at h ⊢
    rw [if_neg (by simp)]
    rw [predict_image]
    exact hm

/-- A `predict` call that completes leaves a non-empty image in the detector. -/
theorem Call.image_of_succeeds {Net : Type} (env : Env Net) (self : Detector Net) (c : Call)
    (h : c.predictSucceeds env self = true) : (c.run env self).original_image.empty = false := by
  cases c with
  | predictMat mat t => exact predictMat_succeeds_image env self mat t h
  | predictFile fn t =>
    simp only [Call.predictSucceeds, Call.run, DarkHelp.predictFile] at h ⊢
    rcases Bool.eq_false_or_eq_true (env.imread fn).empty with hm | hm
    · simp [hm, Except.toBool] at h
    · simp only [hm] at h ⊢
      rw [if_neg (by simp)] at h ⊢
      exact predictMat_succeeds_image env self _ t h
  | predictImage img t =>
    simp only [Call.predictSucceeds, Call.run, DarkHelp.predictImage] at h ⊢
    rcases Bool.eq_false_or_eq_true (convert_darknet_image_to_opencv_mat img).empty with hm | hm
    · simp [hm, Except.toBool] at h
    · simp only [hm] at h ⊢
      rw [if_neg (by simp)] at h ⊢
      exact predictMat_succeeds_image env self _ t h
  | annotate t d => simp [Call.predictSucceeds] at h

/-- On a detector without network, the state `predict` guards against, `predict`
on a non-empty image stores the image and throws `std::logic_error`, and
`annotate` then returns an image. -/
theorem annotate_after_predict_without_network :
    (predictMat (sampleEnv [] []) { sampleDetector [] with net := none } sampleMat (-1)).1
      = .error .logic_error ∧
    (annotate (sampleEnv [] [])
      (predictMat (sampleEnv [] []) { sampleDetector [] with net := none } sampleMat (-1)).2
      (-1) false).1 = .ok sampleMat := by
  constructor
  · decide!
  · decide!

/-- C5, as the claim states it, fails: on a detector constructed without a name
list, `predict` on a non-empty image throws `std::out_of_range` in the decode
loop (no `predict` call has completed), and `annotate` then returns an image
instead of throwing `std::logic_error`. -/
theorem annotate_after_failed_predict :
    ∃ d, (construct (sampleEnv [sampleDetection ⟨1 / 2, 1 / 2, 1 / 4, 1 / 4⟩ (9 / 10) 0] [])
        "a.cfg" "a.weights" "").1 = .ok d ∧
      anyPredictSucceeds (sampleEnv [sampleDetection ⟨1 / 2, 1 / 2, 1 / 4, 1 / 4⟩ (9 / 10) 0] [])
        d [Call.predictMat sampleMat (-1)] = false ∧
      (annotate (sampleEnv [sampleDetection ⟨1 / 2, 1 / 2, 1 / 4, 1 / 4⟩ (9 / 10) 0] [])
        (runCalls (sampleEnv [sampleDetection ⟨1 / 2, 1 / 2, 1 / 4, 1 / 4⟩ (9 / 10) 0] [])
          d [Call.predictMat sampleMat (-1)]) (-1) false).1 = .ok sampleMat ∧
      (annotate (sampleEnv [sampleDetection ⟨1 / 2, 1 / 2, 1 / 4, 1 / 4⟩ (9 / 10) 0] [])
        (runCalls (sampleEnv [sampleDetection ⟨1 / 2, 1 / 2, 1 / 4, 1 / 4⟩ (9 / 10) 0] [])
          d [Call.predictMat sampleMat (-1)]) (-1) false).1 ≠ .error .logic_error := by
  have h1 : (construct (sampleEnv [sampleDetection ⟨1 / 2, 1 / 2, 1 / 4, 1 / 4⟩ (9 / 10) 0] [])
      "a.cfg" "a.weights" "").1 = .ok (sampleDetector []) := rfl
  have h2 : anyPredictSucceeds
      (sampleEnv [sampleDetection ⟨1 / 2, 1 / 2, 1 / 4, 1 / 4⟩ (9 / 10) 0] [])
      (sampleDetector []) [Call.predictMat sampleMat (-1)] = false := by decide!
  have h3 : (annotate (sampleEnv [sampleDetection ⟨1 / 2, 1 / 2, 1 / 4, 1 / 4⟩ (9 / 10) 0] [])
      (runCalls (sampleEnv [sampleDetection ⟨1 / 2, 1 / 2, 1 / 4, 1 / 4⟩ (9 / 10) 0] [])
        (sampleDetector []) [Call.predictMat sampleMat (-1)]) (-1) false).1
      = .ok sampleMat := by decide!
  exact ⟨sampleDetector [], h1, h2, h3, by rw [h3]; decide⟩

/-- C5, amended. The function `annotate` throws `std::logic_error` exactly when
the image stored in the detector is empty.  That is the case on a detector as
constructed and after every sequence of calls in which every `predict` call
was handed an empty image; and after a `predict` call that completes,
`annotate` returns an image. -/
theorem annotate_state_error {Net : Type} (env : Env Net) :
    (∀ (self : Detector Net) (t : ℚ) (f : Bool),
      (annotate env self t f).1 = .error .logic_error ↔ self.original_image.empty = true) ∧
    (∀ (cfg weights names : String) (d : Detector Net),
      (construct env cfg weights names).1 = .ok d →
      ∀ calls : List Call, (∀ c ∈ calls, ∀ m, c.image env = some m → m.empty = true) →
      ∀ (t : ℚ) (f : Bool),
        (annotate env (runCalls env d calls) t f).1 = .error .logic_error) ∧
    (∀ (self : Detector Net) (c : Call), c.predictSucceeds env self = true →
      ∀ (t : ℚ) (f : Bool), ∃ img, (annotate env (c.run env self) t f).1 = .ok img) := by
  refine ⟨fun self t f => annotate_error_iff env self t f, ?_, ?_⟩
  · intro cfg weights names d hd calls hc t f
    have he := construct_image_empty env cfg weights names d hd
    rw [runCalls_of_empty env d calls he hc]
    exact (annotate_error_iff env d t f).mpr he
  · intro self c hc t f
    exact annotate_ok_of_image env _ t f (Call.image_of_succeeds env self c hc)

/-- Witness of C5 as amended: `annotate` after a rejected `predict` and an
earlier `annotate`, and `annotate` after a `predict` that completes. -/
theorem annotate_state_error_witness :
    (annotate (sampleEnv [sampleDetection ⟨1 / 2, 1 / 2, 1 / 4, 1 / 4⟩ (9 / 10) 0] ["barcode"])
      (runCalls (sampleEnv [sampleDetection ⟨1 / 2, 1 / 2, 1 / 4, 1 / 4⟩ (9 / 10) 0] ["barcode"])
        (sampleDetector ["barcode"]) [Call.predictMat Mat.null (-1), Call.annotate (-1) true])
      (-1) false).1 = .error .logic_error ∧
    ∃ img, (annotate
      (sampleEnv [sampleDetection ⟨1 / 2, 1 / 2, 1 / 4, 1 / 4⟩ (9 / 10) 0] ["barcode"])
      ((Call.predictMat sampleMat (-1)).run
        (sampleEnv [sampleDetection ⟨1 / 2, 1 / 2, 1 / 4, 1 / 4⟩ (9 / 10) 0] ["barcode"])
        (sampleDetector ["barcode"])) (-1) true).1 = .ok img := by
  have hc : (construct
      (sampleEnv [sampleDetection ⟨1 / 2, 1 / 2, 1 / 4, 1 / 4⟩ (9 / 10) 0] ["barcode"])
      "a.cfg" "a.weights" "barcode.names").1 = .ok (sampleDetector ["barcode"]) := rfl
  have hs : (Call.predictMat sampleMat (-1)).predictSucceeds
      (sampleEnv [sampleDetection ⟨1 / 2, 1 / 2, 1 / 4, 1 / 4⟩ (9 / 10) 0] ["barcode"])
      (sampleDetector ["barcode"]) = true := by decide!
  have hi : ∀ c ∈ [Call.predictMat Mat.null (-1), Call.annotate (-1) true], ∀ m,
      c.image (sampleEnv [sampleDetection ⟨1 / 2, 1 / 2, 1 / 4, 1 / 4⟩ (9 / 10) 0] ["barcode"])
        = some m → m.empty = true := by
    intro c hc m hm
    simp only [List.mem_cons, List.mem_singleton, List.not_mem_nil, or_false] at hc
    rcases hc with rfl | rfl
    · simp only [Call.image, Option.some.injEq] at hm
      rw [← hm]
      rfl
    · simp [Call.image] at hm
  exact ⟨(annotate_state_error
      (sampleEnv [sampleDetection ⟨1 / 2, 1 / 2, 1 / 4, 1 / 4⟩ (9 / 10) 0] ["barcode"])).2.1
      "a.cfg" "a.weights" "barcode.names" (sampleDetector ["barcode"]) hc
      [Call.predictMat Mat.null (-1), Call.annotate (-1) true] hi (-1) false,
    (annotate_state_error
      (sampleEnv [sampleDetection ⟨1 / 2, 1 / 2, 1 / 4, 1 / 4⟩ (9 / 10) 0] ["barcode"])).2.2
      (sampleDetector ["barcode"]) (Call.predictMat sampleMat (-1)) hs (-1) true⟩

end DarkHelp
